import Mathlib

/-!
Verification of the insurance-bot conversation core against its
natural-language specification.  The definitions below are a shallow
embedding of `src/utils.py` and `src/bot.py`: Python strings are Lean
`String`s (or `List Char` where character-level reasoning is needed),
Python `int` truncation and true division are modelled over `ℚ`, and the
per-user conversation state kept by the telegram framework is an explicit
`Session` value transformed by a step function.
-/

namespace InsuranceBot

/-- Embedding of `calculate_age_factor` from `src/utils.py` lines 27-36.
The float literals 1.3, 0.9 and 1.1 are represented exactly as rationals. -/
def calculate_age_factor (age : ℤ) : ℚ :=
  if age < 25 then 13/10
  else if age < 35 then 1
  else if age < 55 then 9/10
  else 11/10

/-- Numerator over the common denominator 10 of `calculate_age_factor`,
used to carry out the premium computation in exact integer arithmetic. -/
def ageFactorNum (age : ℤ) : ℕ :=
  if age < 25 then 13
  else if age < 35 then 10
  else if age < 55 then 9
  else 11

/-- Embedding of the dictionary lookup `cls.BASE_RATES.get(insurance_type, 500)`
from `src/utils.py` lines 91-102. -/
def utils_base_rate (c : String) : ℕ :=
  if c = "auto" then 800
  else if c = "home" then 1200
  else if c = "health" then 300
  else if c = "travel" then 150
  else if c = "business" then 2000
  else 500

/-- Premium figures returned by the quote calculator. -/
structure QuoteNums where
  annual : ℕ
  monthly : ℕ
deriving DecidableEq

/-- Embedding of `QuoteCalculator.calculate_quote` from `src/utils.py`
lines 100-118, restricted to the premium figures: the source computes
`annual_premium = int(base_rate * age_factor)` and
`monthly_premium = int(annual_premium / 12)` in float arithmetic; every
base rate of the program is divisible by 10 and the age factor is an exact
multiple of one tenth, so both truncations equal the exact natural-number
divisions used here (proved against the rational floor formula in the
theorems below). -/
def calculate_quote (c : String) (age : ℤ) : QuoteNums :=
  let annual : ℕ := utils_base_rate c * ageFactorNum age / 10
  { annual := annual, monthly := annual / 12 }

/-- Test used by Python `str.strip()`, restricted to ASCII whitespace. -/
def isPyWS (c : Char) : Bool :=
  c = ' ' || c = '\t' || c = '\n' || c = '\r' || c = '\x0b' || c = '\x0c'

/-- Embedding of Python `str.strip()` on a character list. -/
def pyStrip (l : List Char) : List Char :=
  ((l.dropWhile isPyWS).reverse.dropWhile isPyWS).reverse

/-- Embedding of Python `str.split(sep)` for a one-character separator:
splits at every occurrence, keeps empty parts, and yields a single empty
part on the empty string. -/
def pySplit (sep : Char) : List Char → List (List Char)
  | [] => [[]]
  | c :: rest =>
    if c = sep then [] :: pySplit sep rest
    else
      match pySplit sep rest with
      | [] => [[c]]
      | h :: t => (c :: h) :: t

/-- City and state parts produced by location parsing. -/
structure LocParts where
  city : List Char
  state : List Char
deriving DecidableEq

/-- Embedding of `parse_location` from `src/utils.py` lines 38-43: split on
every comma and strip each part; with at least two parts the city and state
are the first two stripped parts, otherwise the city is the original string
and the state is empty. -/
def parse_location (l : List Char) : LocParts :=
  let parts := (pySplit ',' l).map pyStrip
  if 2 ≤ parts.length then
    { city := parts.getD 0 [], state := parts.getD 1 [] }
  else
    { city := l, state := [] }

/-- Splits a character list at the first comma: the text before it and,
when a comma exists, the whole text after it. -/
def breakAtComma : List Char → List Char × Option (List Char)
  | [] => ([], none)
  | c :: rest =>
    if c = ',' then ([], some rest)
    else
      let p := breakAtComma rest
      (c :: p.1, p.2)

/-- Location parsing exactly as the claim words it, for comparison with
`parse_location`: the city is the text before the first comma trimmed, the
state is the entire text after the first comma trimmed, and with no comma
the city is the whole string and the state empty. -/
def parse_location_claim (l : List Char) : LocParts :=
  match breakAtComma l with
  | (_, none) => { city := l, state := [] }
  | (pre, some post) => { city := pyStrip pre, state := pyStrip post }

/-- Datetime value as used by `datetime.now()`: calendar fields down to
whole seconds plus a microsecond component. -/
structure PyDateTime where
  year : ℕ
  month : ℕ
  day : ℕ
  hour : ℕ
  minute : ℕ
  second : ℕ
  microsecond : ℕ
deriving DecidableEq

/-- Left-pads the decimal digits of `n` with zeros to width `w`, modelling
the zero-padded fields of `strftime`. -/
def padNum (w n : ℕ) : String :=
  let s := toString n
  String.mk (List.replicate (w - s.length) '0') ++ s

/-- Embedding of `strftime("%Y%m%d%H%M%S")`: whole-second granularity, the
microsecond component of the datetime is dropped. -/
def strftimeYmdHMS (d : PyDateTime) : String :=
  padNum 4 d.year ++ padNum 2 d.month ++ padNum 2 d.day ++
    padNum 2 d.hour ++ padNum 2 d.minute ++ padNum 2 d.second

/-- Embedding of `generate_quote_id` from `src/utils.py` lines 82-86: the id
is `"QT"` followed by the current time formatted to whole seconds; the
current datetime is made an explicit argument. -/
def generate_quote_id (now : PyDateTime) : String :=
  "QT" ++ strftimeYmdHMS now

/-- Response buckets of the free-text handler `InsuranceBot.handle_message`
from `src/bot.py` lines 399-427, one constructor per distinct reply. -/
inductive IntentResponse where
  | redirectToMenu
  | claimsProcess
  | helpText
  | fallback
deriving DecidableEq

/-- Keyword bucket checked first by `handle_message`. -/
def quote_keywords : List String := ["quote", "price", "cost", "rate"]

/-- Keyword bucket checked second by `handle_message`. -/
def claim_keywords : List String := ["claim", "accident", "damage"]

/-- Keyword bucket checked third by `handle_message`. -/
def help_keywords : List String := ["help", "support", "question"]

/-- Boolean substring test on character lists, modelling the Python
containment test `word in message_text`. -/
def listContains : List Char → List Char → Bool
  | [], needle => needle.isEmpty
  | c :: t, needle => ((c :: t).take needle.length == needle) || listContains t needle

/-- Propositional substring containment: `needle` occurs contiguously
inside `hay`. -/
def ContainsSub (hay needle : List Char) : Prop :=
  ∃ a b, hay = a ++ needle ++ b

/-- Lower-cases the characters of the input, modelling
`update.message.text.lower()` on ASCII text. -/
def lowerCL (t : String) : List Char := t.toList.map Char.toLower

/-- Embedding of the keyword dispatch of `InsuranceBot.handle_message`
(`src/bot.py` lines 399-427): buckets are tested in order against the
lower-cased message text, with a generic fallback reply. -/
def handle_message (t : String) : IntentResponse :=
  if quote_keywords.any (fun w => listContains (lowerCL t) w.toList) then .redirectToMenu
  else if claim_keywords.any (fun w => listContains (lowerCL t) w.toList) then .claimsProcess
  else if help_keywords.any (fun w => listContains (lowerCL t) w.toList) then .helpText
  else .fallback

/-- Conversation states of the telegram `ConversationHandler` set up in
`src/bot.py` line 32: `MAIN_MENU`, `INSURANCE_TYPE`, `PERSONAL_INFO` and
`QUOTE_DETAILS`. -/
inductive ConvState where
  | mainMenu
  | insuranceType
  | personalInfo
  | quoteDetails
deriving DecidableEq

/-- Per-user mutable dictionary `context.user_data` as used by the bot:
the keys written anywhere in `src/bot.py` are `insurance_type`, `step`,
`name`, `age` and `location`; an absent key is `none`. -/
structure UserData where
  insurance_type : Option String
  step : Option String
  name : Option String
  age : Option ℤ
  location : Option String
deriving DecidableEq

/-- Per-user session: the active conversation state (or `none` when no
conversation is active, which covers the initial situation and every ended
conversation) together with the user-data dictionary. -/
structure Session where
  conv : Option ConvState
  data : UserData
deriving DecidableEq

/-- Incoming events: the three entry-point commands, the `/cancel`
fallback command, an inline-button callback carrying its data string, and
a plain (non-command) text message. -/
inductive Event where
  | startCmd
  | quoteCmd
  | menuCmd
  | cancelCmd
  | callback (d : String)
  | textMsg (t : String)
deriving DecidableEq

/-- Values interpolated into the quote text produced by
`InsuranceBot.generate_quote` (`src/bot.py` lines 342-389). -/
structure BotQuote where
  qname : String
  qlocation : String
  qage : ℤ
  monthly : ℕ
  annual : ℕ
deriving DecidableEq

/-- Embedding of `InsuranceBot.generate_quote` from `src/bot.py` lines
342-389: defaults for missing fields, the same base-rate table and age
factor as the utils module (duplicated in the source), and Python `int`
truncation of the float products, which is exact here and therefore
carried out in natural-number arithmetic (see `calculate_quote`). -/
def bot_generate_quote (d : UserData) (ins : String) : BotQuote :=
  let age := d.age.getD 30
  let base_rate : ℕ :=
    if ins = "auto" then 800
    else if ins = "home" then 1200
    else if ins = "health" then 300
    else if ins = "travel" then 150
    else if ins = "business" then 2000
    else 500
  let estimated_annual : ℕ := base_rate * ageFactorNum age / 10
  { qname := d.name.getD "Customer",
    qlocation := d.location.getD "Unknown",
    qage := age,
    monthly := estimated_annual / 12,
    annual := estimated_annual }

/-- Error reply of the age step for a parseable but out-of-range age
(`src/bot.py` line 316). -/
def age_range_msg : String := "Please enter a valid age between 18 and 100:"

/-- Error reply of the age step for non-numeric input
(`src/bot.py` line 320). -/
def age_numeric_msg : String := "Please enter a valid age (numbers only):"

/-- Outgoing replies of the conversation handlers, one constructor per
distinct message of `src/bot.py`, carrying the interpolated data where the
claims need it. -/
inductive BotReply where
  | welcome
  | menuPrompt
  | categorySubmenu (c : String)
  | questionsInfo
  | askName
  | thanksAskAge (n : String)
  | askLocation
  | errorText (msg : String)
  | quoteReply (q : BotQuote)
  | learnMoreInfo (c : String)
  | agentInfo
  | cancelAck
  | classified (r : IntentResponse)
deriving DecidableEq

/-- Result of dispatching one event: the updated session, the replies
sent, and the quote emitted when the flow completes. -/
structure StepOut where
  session : Session
  replies : List BotReply
  emitted : Option BotQuote
deriving DecidableEq

/-- Continuation of `pyIntCore`: consumes decimal digits, allowing a
single underscore between digits as Python `int()` does. -/
def pyDigits (acc : ℕ) : List Char → Option ℕ
  | [] => some acc
  | '_' :: c :: rest =>
    if c.isDigit then pyDigits (acc * 10 + (c.toNat - 48)) rest else none
  | ['_'] => none
  | c :: rest =>
    if c.isDigit then pyDigits (acc * 10 + (c.toNat - 48)) rest else none

/-- Digit-run parser: requires a leading decimal digit. -/
def pyIntCore : List Char → Option ℕ
  | [] => none
  | c :: rest =>
    if c.isDigit then pyDigits (c.toNat - 48) rest else none

/-- Embedding of Python `int(text)` on ASCII input as used by the age
step: strip surrounding whitespace, accept an optional sign followed by
decimal digits (single underscores permitted between digits); `none`
models the `ValueError` raised on any other input. -/
def pyIntOfString (s : String) : Option ℤ :=
  match pyStrip s.toList with
  | '-' :: rest => (pyIntCore rest).map (fun n => -(n : ℤ))
  | '+' :: rest => (pyIntCore rest).map (fun n => (n : ℤ))
  | l => (pyIntCore l).map (fun n => (n : ℤ))

/-- Session left unchanged with no replies: an event no handler accepts. -/
def noopStep (s : Session) : StepOut :=
  { session := s, replies := [], emitted := none }

/-- Embedding of `InsuranceBot.cancel` (`src/bot.py` lines 429-434): reply
with an acknowledgment and return `ConversationHandler.END`; the user-data
dictionary is left untouched. -/
def cancelHandler (s : Session) : StepOut :=
  { session := { conv := none, data := s.data }, replies := [.cancelAck], emitted := none }

/-- Embedding of `InsuranceBot.main_menu_handler` (`src/bot.py` lines
126-162): a known category stores `insurance_type` and moves to
`INSURANCE_TYPE`; "questions" ends the conversation; any other callback
data matches no branch, so the handler returns `None` and the state is
kept. -/
def main_menu_handler (s : Session) (d : String) : StepOut :=
  if d = "auto" ∨ d = "home" ∨ d = "health" ∨ d = "travel" ∨ d = "business" then
    { session := { conv := some .insuranceType,
                   data := { s.data with insurance_type := some d } },
      replies := [.categorySubmenu d], emitted := none }
  else if d = "questions" then
    { session := { conv := none, data := s.data },
      replies := [.questionsInfo], emitted := none }
  else
    noopStep s

/-- Embedding of `InsuranceBot.insurance_type_handler` (`src/bot.py` lines
164-206): "get_quote" sets `step = name` and moves to `PERSONAL_INFO`;
"learn_more" and "talk_agent" reply and keep the state; "back_menu" returns
to the main menu; "back_type" delegates to `main_menu_handler` with the
same callback data (which matches nothing there and keeps the state). -/
def insurance_type_handler (s : Session) (d : String) : StepOut :=
  if d = "get_quote" then
    { session := { conv := some .personalInfo,
                   data := { s.data with step := some "name" } },
      replies := [.askName], emitted := none }
  else if d = "learn_more" then
    { session := s, replies := [.learnMoreInfo (s.data.insurance_type.getD "insurance")],
      emitted := none }
  else if d = "talk_agent" then
    { session := s, replies := [.agentInfo], emitted := none }
  else if d = "back_menu" then
    { session := { conv := some .mainMenu, data := s.data },
      replies := [.menuPrompt], emitted := none }
  else if d = "back_type" then
    main_menu_handler s d
  else
    noopStep s

/-- Range check and storage of a successfully parsed age: the body of the
`try` block of `src/bot.py` lines 306-317. -/
def ageBranch (s : Session) (a : ℤ) : StepOut :=
  if 18 ≤ a ∧ a ≤ 100 then
    { session := { conv := some .personalInfo,
                   data := { s.data with age := some a, step := some "location" } },
      replies := [.askLocation], emitted := none }
  else
    { session := { conv := some .personalInfo, data := s.data },
      replies := [.errorText age_range_msg], emitted := none }

/-- Embedding of `InsuranceBot.personal_info_handler` (`src/bot.py` lines
293-340): dispatch on the pending `step`; the name step stores the text
verbatim, the age step validates `int(text)` against [18,100], the
location step stores the text, generates the quote and ends the
conversation; every other branch returns `PERSONAL_INFO`. -/
def personal_info_handler (s : Session) (t : String) : StepOut :=
  if s.data.step = some "name" then
    { session := { conv := some .personalInfo,
                   data := { s.data with name := some t, step := some "age" } },
      replies := [.thanksAskAge t], emitted := none }
  else if s.data.step = some "age" then
    match pyIntOfString t with
    | some a => ageBranch s a
    | none =>
      { session := { conv := some .personalInfo, data := s.data },
        replies := [.errorText age_numeric_msg], emitted := none }
  else if s.data.step = some "location" then
    let d2 := { s.data with location := some t }
    let q := bot_generate_quote d2 (d2.insurance_type.getD "insurance")
    { session := { conv := none, data := d2 },
      replies := [.quoteReply q], emitted := some q }
  else
    { session := { conv := some .personalInfo, data := s.data },
      replies := [], emitted := none }

/-- One dispatch step of update processing: models which handler receives
the event given the active conversation state, following the
`ConversationHandler` wiring of `src/bot.py` lines 44-69 (entry points
only when no conversation is active, per-state handlers, the `/cancel`
fallback, and fall-through of unmatched text to the default
`handle_message` handler; empty text never passes the `filters.TEXT`
message filter). -/
def stepFn (s : Session) (e : Event) : StepOut :=
  match s.conv with
  | none =>
    match e with
    | .startCmd =>
      { session := { conv := some .mainMenu, data := s.data },
        replies := [.welcome, .menuPrompt], emitted := none }
    | .quoteCmd =>
      { session := { conv := some .mainMenu, data := s.data },
        replies := [.menuPrompt], emitted := none }
    | .menuCmd =>
      { session := { conv := some .mainMenu, data := s.data },
        replies := [.menuPrompt], emitted := none }
    | .cancelCmd => noopStep s
    | .callback _ => noopStep s
    | .textMsg t =>
      if t = "" then noopStep s
      else { session := s, replies := [.classified (handle_message t)], emitted := none }
  | some .mainMenu =>
    match e with
    | .callback d => main_menu_handler s d
    | .cancelCmd => cancelHandler s
    | .textMsg t =>
      if t = "" then noopStep s
      else { session := s, replies := [.classified (handle_message t)], emitted := none }
    | _ => noopStep s
  | some .insuranceType =>
    match e with
    | .callback d => insurance_type_handler s d
    | .cancelCmd => cancelHandler s
    | .textMsg t =>
      if t = "" then noopStep s
      else { session := s, replies := [.classified (handle_message t)], emitted := none }
    | _ => noopStep s
  | some .personalInfo =>
    match e with
    | .textMsg t =>
      if t = "" then noopStep s
      else personal_info_handler s t
    | .cancelCmd => cancelHandler s
    | _ => noopStep s
  | some .quoteDetails =>
    match e with
    | .textMsg _ => noopStep s
    | .cancelCmd => cancelHandler s
    | _ => noopStep s

/-- Session of a user who has not interacted yet: no active conversation
and an empty user-data dictionary. -/
def initSession : Session :=
  { conv := none,
    data := { insurance_type := none, step := none, name := none,
              age := none, location := none } }

/-- Runs a list of events through the dispatcher. -/
def exec (s : Session) (evs : List Event) : Session :=
  evs.foldl (fun s e => (stepFn s e).session) s

/-- Invariant maintained by the dispatcher from the initial session:
an active collecting conversation has a pending step, each later step
implies the earlier fields are present, and any stored age lies in
[18,100]. -/
def Inv (s : Session) : Prop :=
  (s.conv = some ConvState.personalInfo → s.data.step ≠ none) ∧
  (s.data.step = some "age" → s.data.name ≠ none) ∧
  (s.data.step = some "location" →
    s.data.name ≠ none ∧ ∃ a : ℤ, s.data.age = some a ∧ 18 ≤ a ∧ a ≤ 100) ∧
  (∀ a : ℤ, s.data.age = some a → 18 ≤ a ∧ a ≤ 100)

lemma calculate_age_factor_eq_num_div (a : ℤ) :
    calculate_age_factor a = (ageFactorNum a : ℚ) / 10 := by
  unfold calculate_age_factor ageFactorNum
  split_ifs <;> norm_num

lemma natCast_div_eq_floorQ (n d : ℕ) :
    ((n / d : ℕ) : ℤ) = ⌊(n : ℚ) / (d : ℚ)⌋ := by
  rw [Rat.floor_natCast_div_natCast]
  exact Int.natCast_div n d

/-- C1: for every insurance category (base rates auto=800, home=1200,
health=300, travel=150, business=2000, any other 500) and every age, the
quote computation returns `annualPremium = ⌊baseRate * multiplier⌋` and
`monthlyPremium = ⌊annualPremium / 12⌋`, where the multiplier is 1.3 below
25, 1.0 on [25,35), 0.9 on [35,55) and 1.1 from 55 on. -/
theorem c1_pricing_formula (c : String) (a : ℤ) :
    (((calculate_quote c a).annual : ℤ) =
        ⌊(utils_base_rate c : ℚ) * calculate_age_factor a⌋ ∧
      ((calculate_quote c a).monthly : ℤ) =
        ⌊((calculate_quote c a).annual : ℚ) / 12⌋) ∧
    (utils_base_rate "auto" = 800 ∧ utils_base_rate "home" = 1200 ∧
      utils_base_rate "health" = 300 ∧ utils_base_rate "travel" = 150 ∧
      utils_base_rate "business" = 2000) ∧
    (c ∉ (["auto", "home", "health", "travel", "business"] : List String) →
      utils_base_rate c = 500) ∧
    ((a < 25 → calculate_age_factor a = 13/10) ∧
      (25 ≤ a → a < 35 → calculate_age_factor a = 1) ∧
      (35 ≤ a → a < 55 → calculate_age_factor a = 9/10) ∧
      (55 ≤ a → calculate_age_factor a = 11/10)) := by
  refine ⟨⟨?_, ?_⟩, ⟨rfl, rfl, rfl, rfl, rfl⟩, ?_, ?_, ?_, ?_, ?_⟩
  · rw [calculate_age_factor_eq_num_div]
    have h : (utils_base_rate c : ℚ) * ((ageFactorNum a : ℚ) / 10) =
        ((utils_base_rate c * ageFactorNum a : ℕ) : ℚ) / ((10 : ℕ) : ℚ) := by
      push_cast
      ring
    rw [h]
    exact natCast_div_eq_floorQ (utils_base_rate c * ageFactorNum a) 10
  · have h : ((calculate_quote c a).annual : ℚ) / 12 =
        ((calculate_quote c a).annual : ℚ) / ((12 : ℕ) : ℚ) := by norm_num
    rw [h]
    exact natCast_div_eq_floorQ (calculate_quote c a).annual 12
  · intro hc
    simp only [List.mem_cons, List.not_mem_nil, or_false, not_or] at hc
    obtain ⟨h1, h2, h3, h4, h5⟩ := hc
    simp [utils_base_rate, h1, h2, h3, h4, h5]
  · intro h
    simp [calculate_age_factor, h]
  · intro h1 h2
    simp [calculate_age_factor, not_lt.mpr h1, h2]
  · intro h1 h2
    simp [calculate_age_factor, not_lt.mpr h1, h2, show ¬ a < 25 by omega]
  · intro h1
    simp [calculate_age_factor, show ¬ a < 25 by omega, show ¬ a < 35 by omega,
      show ¬ a < 55 by omega]

/-- Witness for C1 at concrete inputs: an unknown category gets base rate
500 and age 30 gets multiplier 1.0. -/
theorem c1_pricing_formula_witness :
    utils_base_rate "boat" = 500 ∧ calculate_age_factor 30 = 1 :=
  ⟨(c1_pricing_formula "boat" 30).2.2.1 (by decide),
    (c1_pricing_formula "boat" 30).2.2.2.2.1 (by decide) (by decide)⟩

lemma pySplit_ne_nil (sep : Char) (l : List Char) : pySplit sep l ≠ [] := by
  induction l with
  | nil => simp [pySplit]
  | cons c rest ih =>
    by_cases hc : c = sep
    · simp [pySplit, hc]
    · simp only [pySplit, hc, if_false]
      cases hps : pySplit sep rest <;> simp

lemma pySplit_of_not_mem (sep : Char) (l : List Char) (h : sep ∉ l) :
    pySplit sep l = [l] := by
  induction l with
  | nil => rfl
  | cons c rest ih =>
    have hc : ¬ c = sep := fun e => h (e ▸ List.mem_cons_self c rest)
    have hr : sep ∉ rest := fun m => h (List.mem_cons_of_mem c m)
    simp [pySplit, hc, ih hr]

lemma pySplit_append (sep : Char) (a b : List Char) (h : sep ∉ a) :
    pySplit sep (a ++ sep :: b) = a :: pySplit sep b := by
  induction a with
  | nil => simp [pySplit]
  | cons c rest ih =>
    have hc : ¬ c = sep := fun e => h (e ▸ List.mem_cons_self c rest)
    have hr : sep ∉ rest := fun m => h (List.mem_cons_of_mem c m)
    simp [pySplit, hc, ih hr]

lemma pySplit_headD (sep : Char) (l : List Char) :
    (pySplit sep l).getD 0 [] = l.takeWhile (fun c => c != sep) := by
  induction l with
  | nil => rfl
  | cons c rest ih =>
    by_cases hc : c = sep
    · subst hc
      simp [pySplit, List.takeWhile_cons]
    · cases hps : pySplit sep rest with
      | nil => exact absurd hps (pySplit_ne_nil sep rest)
      | cons hd tl =>
        rw [hps] at ih
        simp only [List.getD] at ih
        simp at ih
        simp [pySplit, hc, hps, List.takeWhile_cons, ih]

/-- C3 is refuted at the input "a, b, c": the code keeps only the part
between the first and second comma as the state, while the claim demands
the entire text after the first comma. -/
theorem c3_location_counterexample :
    parse_location ("a, b, c".toList) ≠ parse_location_claim ("a, b, c".toList) ∧
    (parse_location ("a, b, c".toList)).state = "b".toList ∧
    (parse_location_claim ("a, b, c".toList)).state = "b, c".toList := by
  decide

/-- C3 (amended): splitting happens on every comma with each part stripped;
with at least one comma the city is the stripped text before the first
comma and the state is the stripped text BETWEEN the first and the second
comma (not the entire remainder); with no comma the city is the whole
string untrimmed and the state empty; the function is total, and empty
input yields empty city and state. -/
theorem c3_location_amended (a b : List Char) :
    (',' ∉ a →
      parse_location (a ++ ',' :: b) =
        { city := pyStrip a,
          state := pyStrip (b.takeWhile (fun c => c != ',')) }) ∧
    (',' ∉ a → parse_location a = { city := a, state := [] }) ∧
    parse_location [] = { city := [], state := [] } := by
  refine ⟨?_, ?_, rfl⟩
  · intro h
    unfold parse_location
    rw [pySplit_append ',' a b h]
    cases hps : pySplit ',' b with
    | nil => exact absurd hps (pySplit_ne_nil ',' b)
    | cons hd tl =>
      have hhd : hd = b.takeWhile (fun c => c != ',') := by
        have := pySplit_headD ',' b
        rw [hps] at this
        simpa using this
      simp [hps, hhd]
  · intro h
    unfold parse_location
    rw [pySplit_of_not_mem ',' a h]
    simp

/-- Witness for the amended C3 at the input "Austin, TX". -/
theorem c3_location_amended_witness :
    parse_location ("Austin".toList ++ ',' :: " TX".toList) =
      { city := pyStrip ("Austin".toList),
        state := pyStrip ((" TX".toList).takeWhile (fun c => c != ',')) } :=
  (c3_location_amended ("Austin".toList) (" TX".toList)).1 (by decide)

/-- C8 fails in the code: the quote id is the timestamp formatted to whole
seconds, so two generations within the same second collide even though
they are distinct invocations. -/
theorem c8_quote_id_collision :
    (⟨2024, 1, 15, 12, 0, 0, 0⟩ : PyDateTime) ≠ ⟨2024, 1, 15, 12, 0, 0, 500000⟩ ∧
    generate_quote_id ⟨2024, 1, 15, 12, 0, 0, 0⟩ =
      generate_quote_id ⟨2024, 1, 15, 12, 0, 0, 500000⟩ ∧
    generate_quote_id ⟨2024, 1, 15, 12, 0, 0, 0⟩ = "QT20240115120000" := by
  decide

lemma take_length_eq_iff (l n : List Char) :
    l.take n.length = n ↔ ∃ b, l = n ++ b := by
  constructor
  · intro h
    refine ⟨l.drop n.length, ?_⟩
    conv_lhs => rw [← List.take_append_drop n.length l]
    rw [h]
  · rintro ⟨b, rfl⟩
    exact List.take_left n b

lemma listContains_iff (hay needle : List Char) :
    listContains hay needle = true ↔ ContainsSub hay needle := by
  induction hay with
  | nil =>
    simp only [listContains, List.isEmpty_iff, ContainsSub]
    constructor
    · intro h
      exact ⟨[], [], by simp [h]⟩
    · rintro ⟨a, b, h⟩
      rcases List.append_eq_nil.mp (List.append_eq_nil.mp h.symm).1 with ⟨_, h2⟩
      exact h2
  | cons c t ih =>
    simp only [listContains, Bool.or_eq_true, beq_iff_eq, ih]
    constructor
    · rintro (htake | hsub)
      · obtain ⟨b, hb⟩ := (take_length_eq_iff (c :: t) needle).mp htake
        exact ⟨[], b, by simpa using hb⟩
      · obtain ⟨a, b, hab⟩ := hsub
        exact ⟨c :: a, b, by simp [hab]⟩
    · rintro ⟨a, b, he⟩
      cases a with
      | nil =>
        left
        exact (take_length_eq_iff (c :: t) needle).mpr ⟨b, by simpa using he⟩
      | cons x a2 =>
        right
        rw [List.cons_append, List.cons_append] at he
        injection he with h1 h2
        exact ⟨a2, b, h2⟩

lemma any_contains_iff (ws : List String) (m : List Char) :
    (ws.any fun w => listContains m w.toList) = true ↔
      ∃ w ∈ ws, ContainsSub m w.toList := by
  simp only [List.any_eq_true, listContains_iff]

/-- C6: the free-text handler lower-cases the input and answers with the
first matching bucket in the order quote, claim, help, fallback; it always
returns exactly one of the four responses. -/
theorem c6_intent_buckets (t : String) :
    ((∃ w ∈ quote_keywords, ContainsSub (lowerCL t) w.toList) →
      handle_message t = .redirectToMenu) ∧
    (¬ (∃ w ∈ quote_keywords, ContainsSub (lowerCL t) w.toList) →
      (∃ w ∈ claim_keywords, ContainsSub (lowerCL t) w.toList) →
      handle_message t = .claimsProcess) ∧
    (¬ (∃ w ∈ quote_keywords, ContainsSub (lowerCL t) w.toList) →
      ¬ (∃ w ∈ claim_keywords, ContainsSub (lowerCL t) w.toList) →
      (∃ w ∈ help_keywords, ContainsSub (lowerCL t) w.toList) →
      handle_message t = .helpText) ∧
    (¬ (∃ w ∈ quote_keywords, ContainsSub (lowerCL t) w.toList) →
      ¬ (∃ w ∈ claim_keywords, ContainsSub (lowerCL t) w.toList) →
      ¬ (∃ w ∈ help_keywords, ContainsSub (lowerCL t) w.toList) →
      handle_message t = .fallback) ∧
    (handle_message t = .redirectToMenu ∨ handle_message t = .claimsProcess ∨
      handle_message t = .helpText ∨ handle_message t = .fallback) := by
  have hq := any_contains_iff quote_keywords (lowerCL t)
  have hc := any_contains_iff claim_keywords (lowerCL t)
  have hh := any_contains_iff help_keywords (lowerCL t)
  unfold handle_message
  refine ⟨?_, ?_, ?_, ?_, ?_⟩
  · intro he
    rw [if_pos (hq.mpr he)]
  · intro hn he
    rw [if_neg (fun hb => hn (hq.mp hb)), if_pos (hc.mpr he)]
  · intro hn1 hn2 he
    rw [if_neg (fun hb => hn1 (hq.mp hb)), if_neg (fun hb => hn2 (hc.mp hb)),
      if_pos (hh.mpr he)]
  · intro hn1 hn2 hn3
    rw [if_neg (fun hb => hn1 (hq.mp hb)), if_neg (fun hb => hn2 (hc.mp hb)),
      if_neg (fun hb => hn3 (hh.mp hb))]
  · split_ifs <;> simp

/-- Witness for C6 at the concrete input "what is the price". -/
theorem c6_intent_buckets_witness :
    handle_message "what is the price" = IntentResponse.redirectToMenu :=
  (c6_intent_buckets "what is the price").1
    ⟨"price", by decide, ⟨"what is the ".toList, [], by decide⟩⟩

/-- C10: keyword matching is substring-based, not whole-word: any input
whose lower-cased text contains "rate" anywhere gets the quote-bucket
response, and the concrete inputs "accurate" and "Reclaim" — none of whose
space-separated words is a keyword — get the quote and claims responses. -/
theorem c10_substring_matching :
    (∀ t : String, ContainsSub (lowerCL t) ("rate".toList) →
      handle_message t = .redirectToMenu) ∧
    handle_message "accurate" = .redirectToMenu ∧
    (∀ w ∈ pySplit ' ' (lowerCL "accurate"),
      ¬ ∃ k ∈ quote_keywords ++ claim_keywords ++ help_keywords, w = k.toList) ∧
    handle_message "Reclaim" = .claimsProcess ∧
    (∀ w ∈ pySplit ' ' (lowerCL "Reclaim"),
      ¬ ∃ k ∈ quote_keywords ++ claim_keywords ++ help_keywords, w = k.toList) := by
  refine ⟨?_, by decide, by decide, by decide, by decide⟩
  intro t h
  unfold handle_message
  rw [if_pos ((any_contains_iff quote_keywords (lowerCL t)).mpr ⟨"rate", by decide, h⟩)]

/-- Witness for C10 at the concrete input "this rate is accurate". -/
theorem c10_substring_matching_witness :
    handle_message "this rate is accurate" = IntentResponse.redirectToMenu :=
  (c10_substring_matching).1 "this rate is accurate"
    ⟨"this ".toList, " is accurate".toList, by decide⟩

lemma inv_init : Inv initSession := by
  refine ⟨?_, ?_, ?_, ?_⟩ <;> simp [initSession]

lemma inv_main_menu_handler (s : Session) (d : String) (h : Inv s) :
    Inv (main_menu_handler s d).session := by
  obtain ⟨h1, h2, h3, h4⟩ := h
  unfold main_menu_handler
  split_ifs
  · exact ⟨by simp, h2, h3, h4⟩
  · exact ⟨by simp, h2, h3, h4⟩
  · exact ⟨h1, h2, h3, h4⟩

lemma inv_insurance_type_handler (s : Session) (d : String) (h : Inv s) :
    Inv (insurance_type_handler s d).session := by
  obtain ⟨h1, h2, h3, h4⟩ := h
  unfold insurance_type_handler
  split_ifs
  · exact ⟨by simp, by simp, by simp, h4⟩
  · exact ⟨h1, h2, h3, h4⟩
  · exact ⟨h1, h2, h3, h4⟩
  · exact ⟨by simp, h2, h3, h4⟩
  · exact inv_main_menu_handler s d ⟨h1, h2, h3, h4⟩
  · exact ⟨h1, h2, h3, h4⟩

lemma inv_ageBranch (s : Session) (a : ℤ) (h : Inv s)
    (hc : s.conv = some ConvState.personalInfo)
    (h6 : s.data.step = some "age") :
    Inv (ageBranch s a).session := by
  obtain ⟨h1, h2, h3, h4⟩ := h
  unfold ageBranch
  by_cases hr : 18 ≤ a ∧ a ≤ 100
  · rw [if_pos hr]
    refine ⟨by simp, by simp, fun _ => ⟨h2 h6, a, rfl, hr.1, hr.2⟩, ?_⟩
    intro a2 e
    have e2 : some a = some a2 := e
    injection e2 with e3
    exact e3 ▸ hr
  · rw [if_neg hr]
    exact ⟨fun _ => h1 hc, h2, h3, h4⟩

lemma inv_personal_info_handler (s : Session) (t : String) (h : Inv s)
    (hc : s.conv = some ConvState.personalInfo) :
    Inv (personal_info_handler s t).session := by
  obtain ⟨h1, h2, h3, h4⟩ := h
  unfold personal_info_handler
  split_ifs with h5 h6 h7
  · exact ⟨by simp, by simp, by simp, h4⟩
  · cases hp : pyIntOfString t with
    | none => exact ⟨fun _ => h1 hc, h2, h3, h4⟩
    | some a =>
      show Inv (ageBranch s a).session
      exact inv_ageBranch s a ⟨h1, h2, h3, h4⟩ hc h6
  · exact ⟨by simp, h2, h3, h4⟩
  · exact ⟨fun _ => h1 hc, h2, h3, h4⟩

lemma inv_step (s : Session) (e : Event) (h : Inv s) : Inv (stepFn s e).session := by
  obtain ⟨h1, h2, h3, h4⟩ := h
  obtain ⟨conv, data⟩ := s
  cases conv with
  | none =>
    cases e with
    | startCmd => exact ⟨by intro hx; simp [stepFn] at hx, h2, h3, h4⟩
    | quoteCmd => exact ⟨by intro hx; simp [stepFn] at hx, h2, h3, h4⟩
    | menuCmd => exact ⟨by intro hx; simp [stepFn] at hx, h2, h3, h4⟩
    | cancelCmd => exact ⟨h1, h2, h3, h4⟩
    | callback d => exact ⟨h1, h2, h3, h4⟩
    | textMsg t =>
      show Inv (if t = "" then noopStep _ else _).session
      split <;> exact ⟨h1, h2, h3, h4⟩
  | some c =>
    cases c with
    | mainMenu =>
      cases e with
      | callback d => exact inv_main_menu_handler _ d ⟨h1, h2, h3, h4⟩
      | cancelCmd => exact ⟨by intro hx; simp [stepFn, cancelHandler] at hx, h2, h3, h4⟩
      | textMsg t =>
        show Inv (if t = "" then noopStep _ else _).session
        split <;> exact ⟨h1, h2, h3, h4⟩
      | startCmd => exact ⟨h1, h2, h3, h4⟩
      | quoteCmd => exact ⟨h1, h2, h3, h4⟩
      | menuCmd => exact ⟨h1, h2, h3, h4⟩
    | insuranceType =>
      cases e with
      | callback d => exact inv_insurance_type_handler _ d ⟨h1, h2, h3, h4⟩
      | cancelCmd => exact ⟨by intro hx; simp [stepFn, cancelHandler] at hx, h2, h3, h4⟩
      | textMsg t =>
        show Inv (if t = "" then noopStep _ else _).session
        split <;> exact ⟨h1, h2, h3, h4⟩
      | startCmd => exact ⟨h1, h2, h3, h4⟩
      | quoteCmd => exact ⟨h1, h2, h3, h4⟩
      | menuCmd => exact ⟨h1, h2, h3, h4⟩
    | personalInfo =>
      cases e with
      | textMsg t =>
        show Inv (if t = "" then noopStep _ else personal_info_handler _ t).session
        split
        · exact ⟨h1, h2, h3, h4⟩
        · exact inv_personal_info_handler _ t ⟨h1, h2, h3, h4⟩ rfl
      | cancelCmd => exact ⟨by intro hx; simp [stepFn, cancelHandler] at hx, h2, h3, h4⟩
      | startCmd => exact ⟨h1, h2, h3, h4⟩
      | quoteCmd => exact ⟨h1, h2, h3, h4⟩
      | menuCmd => exact ⟨h1, h2, h3, h4⟩
      | callback d => exact ⟨h1, h2, h3, h4⟩
    | quoteDetails =>
      cases e with
      | textMsg t => exact ⟨h1, h2, h3, h4⟩
      | cancelCmd => exact ⟨by intro hx; simp [stepFn, cancelHandler] at hx, h2, h3, h4⟩
      | startCmd => exact ⟨h1, h2, h3, h4⟩
      | quoteCmd => exact ⟨h1, h2, h3, h4⟩
      | menuCmd => exact ⟨h1, h2, h3, h4⟩
      | callback d => exact ⟨h1, h2, h3, h4⟩

lemma inv_exec (evs : List Event) : ∀ s, Inv s → Inv (exec s evs) := by
  induction evs with
  | nil => exact fun _ h => h
  | cons e rest ih => exact fun s h => ih _ (inv_step s e h)

lemma inv_reachable (evs : List Event) : Inv (exec initSession evs) :=
  inv_exec evs initSession inv_init

/-- C4 is refuted: a complete successful flow ends the conversation (a
terminal situation, not CollectingInfo) while `step` still holds
`"location"`, so the pending field is set without the collecting state. -/
theorem c4_invariant_counterexample :
    (exec initSession [.startCmd, .callback "auto", .callback "get_quote",
      .textMsg "Jane Doe", .textMsg "29", .textMsg "Austin, TX"]).conv = none ∧
    (exec initSession [.startCmd, .callback "auto", .callback "get_quote",
      .textMsg "Jane Doe", .textMsg "29", .textMsg "Austin, TX"]).data.step =
      some "location" := by decide

/-- C4 (amended): only the forward direction of the invariant holds in
every reachable session — when the conversation is collecting info a
pending field is set; the converse fails because the pending field is not
cleared when the flow completes. -/
theorem c4_invariant_amended (evs : List Event)
    (h : (exec initSession evs).conv = some ConvState.personalInfo) :
    (exec initSession evs).data.step ≠ none :=
  (inv_reachable evs).1 h

/-- Witness for the amended C4 on a concrete reachable collecting state. -/
theorem c4_invariant_amended_witness :
    (exec initSession [.startCmd, .callback "auto",
      .callback "get_quote"]).data.step ≠ none :=
  c4_invariant_amended [.startCmd, .callback "auto", .callback "get_quote"]
    (by decide)

/-- C5 is refuted: cancelling mid-flow ends the conversation but the
already collected fields survive in the per-user data store instead of
being removed. -/
theorem c5_destroy_counterexample :
    (exec initSession [.startCmd, .callback "auto", .callback "get_quote",
      .textMsg "Jane", .cancelCmd]).conv = none ∧
    (exec initSession [.startCmd, .callback "auto", .callback "get_quote",
      .textMsg "Jane", .cancelCmd]).data.name = some "Jane" ∧
    (exec initSession [.startCmd, .callback "auto", .callback "get_quote",
      .textMsg "Jane", .cancelCmd]).data.insurance_type = some "auto" ∧
    (exec initSession [.startCmd, .callback "auto", .callback "get_quote",
      .textMsg "Jane", .cancelCmd]).data.step = some "age" := by decide

/-- C5 (amended): a cancel event in any active conversation state, and a
completed flow, end the conversation — the active-state entry is dropped —
but the collected fields are NOT removed: cancel preserves the user data
verbatim and completion preserves it while recording the location just
provided. -/
theorem c5_terminal_amended (s : Session) (c : ConvState)
    (h : s.conv = some c) :
    ((stepFn s Event.cancelCmd).session.conv = none ∧
      (stepFn s Event.cancelCmd).session.data = s.data ∧
      (stepFn s Event.cancelCmd).replies = [BotReply.cancelAck]) ∧
    (∀ t : String, t ≠ "" → c = ConvState.personalInfo →
      s.data.step = some "location" →
      (stepFn s (Event.textMsg t)).session.conv = none ∧
      (stepFn s (Event.textMsg t)).session.data =
        { s.data with location := some t }) := by
  constructor
  · cases c <;>
      rw [show stepFn s Event.cancelCmd = cancelHandler s by simp only [stepFn, h]] <;>
      exact ⟨rfl, rfl, rfl⟩
  · intro t ht hc hl
    subst hc
    have hred : stepFn s (Event.textMsg t) = personal_info_handler s t := by
      simp only [stepFn, h]
      rw [if_neg ht]
    have hname : ¬ s.data.step = some "name" := by rw [hl]; simp
    have hage : ¬ s.data.step = some "age" := by rw [hl]; simp
    rw [hred]
    unfold personal_info_handler
    rw [if_neg hname, if_neg hage, if_pos hl]
    exact ⟨rfl, rfl⟩

/-- Witness for the amended C5: cancelling from the main menu ends the
conversation, keeps the data and acknowledges. -/
theorem c5_terminal_amended_witness :
    (stepFn { conv := some ConvState.mainMenu, data := initSession.data }
        Event.cancelCmd).session.conv = none ∧
    (stepFn { conv := some ConvState.mainMenu, data := initSession.data }
        Event.cancelCmd).session.data = initSession.data :=
  ⟨((c5_terminal_amended _ ConvState.mainMenu rfl).1).1,
    ((c5_terminal_amended _ ConvState.mainMenu rfl).1).2.1⟩

/-- C7 is refuted: whitespace-only input at the name step is stored
verbatim as the name and the flow advances to the age step, with no
rejection of whitespace-only text. -/
theorem c7_name_counterexample :
    (exec initSession [.startCmd, .callback "auto", .callback "get_quote",
      .textMsg " "]).data.name = some " " ∧
    (exec initSession [.startCmd, .callback "auto", .callback "get_quote",
      .textMsg " "]).data.step = some "age" ∧
    (exec initSession [.startCmd, .callback "auto", .callback "get_quote",
      .textMsg " "]).conv = some ConvState.personalInfo := by decide

/-- C7 (amended): at the name step every nonempty text — whitespace-only
included — is accepted, stored verbatim and advances the pending field to
age; empty text never reaches the handler (the message filter drops it)
and changes nothing; no EmptyInput rejection exists in the code. -/
theorem c7_name_amended (s : Session) (t : String)
    (hconv : s.conv = some ConvState.personalInfo)
    (hstep : s.data.step = some "name") :
    (t ≠ "" →
      (stepFn s (Event.textMsg t)).session =
        { conv := some ConvState.personalInfo,
          data := { s.data with name := some t, step := some "age" } } ∧
      (stepFn s (Event.textMsg t)).replies = [BotReply.thanksAskAge t]) ∧
    ((stepFn s (Event.textMsg "")).session = s ∧
      (stepFn s (Event.textMsg "")).replies = []) := by
  constructor
  · intro ht
    have hred : stepFn s (Event.textMsg t) = personal_info_handler s t := by
      simp only [stepFn, hconv]
      rw [if_neg ht]
    rw [hred]
    unfold personal_info_handler
    rw [if_pos hstep]
    exact ⟨rfl, rfl⟩
  · have hred : stepFn s (Event.textMsg "") = noopStep s := by
      simp [stepFn, hconv]
    rw [hred]
    exact ⟨rfl, rfl⟩

/-- Witness for the amended C7: the name " " (whitespace-only) is stored
and the step advances. -/
theorem c7_name_amended_witness :
    (stepFn { conv := some ConvState.personalInfo,
              data := { insurance_type := some "auto", step := some "name",
                        name := none, age := none, location := none } }
        (Event.textMsg " ")).session =
      { conv := some ConvState.personalInfo,
        data := { insurance_type := some "auto", step := some "age",
                  name := some " ", age := none, location := none } } :=
  ((c7_name_amended _ " " rfl rfl).1 (by decide)).1

/-- C2: at the age step, input parsing as an integer in [18,100] stores the
age and advances the pending field to location; non-numeric input
re-prompts with the numbers-only message, out-of-range input re-prompts
with the range message — two distinct messages — and in both error cases
the whole session (state, pending field and every collected field) is
unchanged. -/
theorem c2_age_step (s : Session) (t : String)
    (hconv : s.conv = some ConvState.personalInfo)
    (hstep : s.data.step = some "age") (ht : t ≠ "") :
    (∀ a : ℤ, pyIntOfString t = some a → 18 ≤ a → a ≤ 100 →
      (stepFn s (Event.textMsg t)).session =
        { conv := some ConvState.personalInfo,
          data := { s.data with age := some a, step := some "location" } } ∧
      (stepFn s (Event.textMsg t)).replies = [BotReply.askLocation]) ∧
    (pyIntOfString t = none →
      (stepFn s (Event.textMsg t)).session = s ∧
      (stepFn s (Event.textMsg t)).replies = [BotReply.errorText age_numeric_msg]) ∧
    (∀ a : ℤ, pyIntOfString t = some a → (a < 18 ∨ 100 < a) →
      (stepFn s (Event.textMsg t)).session = s ∧
      (stepFn s (Event.textMsg t)).replies = [BotReply.errorText age_range_msg]) ∧
    age_numeric_msg ≠ age_range_msg := by
  have hname : ¬ s.data.step = some "name" := by rw [hstep]; simp
  have hred : stepFn s (Event.textMsg t) = personal_info_handler s t := by
    simp only [stepFn, hconv]
    rw [if_neg ht]
  refine ⟨?_, ?_, ?_, by decide⟩
  · intro a hp h18 h100
    rw [hred]
    unfold personal_info_handler
    rw [if_neg hname, if_pos hstep, hp]
    show (ageBranch s a).session = _ ∧ (ageBranch s a).replies = _
    unfold ageBranch
    rw [if_pos ⟨h18, h100⟩]
    exact ⟨rfl, rfl⟩
  · intro hp
    rw [hred]
    unfold personal_info_handler
    rw [if_neg hname, if_pos hstep, hp]
    constructor
    · show ({ conv := some ConvState.personalInfo, data := s.data } : Session) = s
      rw [← hconv]
    · rfl
  · intro a hp hout
    rw [hred]
    unfold personal_info_handler
    rw [if_neg hname, if_pos hstep, hp]
    show (ageBranch s a).session = s ∧
      (ageBranch s a).replies = [BotReply.errorText age_range_msg]
    unfold ageBranch
    rw [if_neg (by omega : ¬ (18 ≤ a ∧ a ≤ 100))]
    constructor
    · show ({ conv := some ConvState.personalInfo, data := s.data } : Session) = s
      rw [← hconv]
    · rfl

/-- Witness for C2: non-numeric input at the age step re-prompts with the
numbers-only message and leaves the session unchanged. -/
theorem c2_age_step_witness :
    (stepFn { conv := some ConvState.personalInfo,
              data := { insurance_type := some "auto", step := some "age",
                        name := some "Jane", age := none, location := none } }
        (Event.textMsg "abc")).session =
      { conv := some ConvState.personalInfo,
        data := { insurance_type := some "auto", step := some "age",
                  name := some "Jane", age := none, location := none } } :=
  ((c2_age_step _ "abc" rfl rfl (by decide)).2.1 (by decide)).1

lemma main_menu_handler_emitted (s : Session) (d : String) :
    (main_menu_handler s d).emitted = none := by
  unfold main_menu_handler noopStep
  split_ifs <;> rfl

lemma insurance_type_handler_emitted (s : Session) (d : String) :
    (insurance_type_handler s d).emitted = none := by
  unfold insurance_type_handler noopStep
  split_ifs <;> first | rfl | exact main_menu_handler_emitted s d

lemma personal_info_handler_emitted_of_ne (s : Session) (t : String)
    (hl : ¬ s.data.step = some "location") :
    (personal_info_handler s t).emitted = none := by
  unfold personal_info_handler
  split_ifs with h5 h6
  · rfl
  · cases hp : pyIntOfString t with
    | none => rfl
    | some a =>
      show (ageBranch s a).emitted = none
      unfold ageBranch
      split_ifs <;> rfl
  · rfl

lemma emitted_some_inversion (s : Session) (e : Event) (q : BotQuote)
    (h : (stepFn s e).emitted = some q) :
    s.conv = some ConvState.personalInfo ∧
    s.data.step = some "location" ∧
    ∃ t : String, e = Event.textMsg t ∧ t ≠ "" ∧
      (stepFn s e).session =
        { conv := none, data := { s.data with location := some t } } := by
  cases hs : s.conv with
  | none =>
    cases e with
    | textMsg t =>
      simp only [stepFn, hs] at h
      split_ifs at h
      all_goals simp [noopStep] at h
    | startCmd => simp [stepFn, hs] at h
    | quoteCmd => simp [stepFn, hs] at h
    | menuCmd => simp [stepFn, hs] at h
    | cancelCmd => simp [stepFn, hs, noopStep] at h
    | callback d => simp [stepFn, hs, noopStep] at h
  | some c =>
    cases c with
    | mainMenu =>
      cases e with
      | callback d => simp [stepFn, hs, main_menu_handler_emitted] at h
      | cancelCmd => simp [stepFn, hs, cancelHandler] at h
      | textMsg t =>
        simp only [stepFn, hs] at h
        split_ifs at h
        all_goals simp [noopStep] at h
      | startCmd => simp [stepFn, hs, noopStep] at h
      | quoteCmd => simp [stepFn, hs, noopStep] at h
      | menuCmd => simp [stepFn, hs, noopStep] at h
    | insuranceType =>
      cases e with
      | callback d => simp [stepFn, hs, insurance_type_handler_emitted] at h
      | cancelCmd => simp [stepFn, hs, cancelHandler] at h
      | textMsg t =>
        simp only [stepFn, hs] at h
        split_ifs at h
        all_goals simp [noopStep] at h
      | startCmd => simp [stepFn, hs, noopStep] at h
      | quoteCmd => simp [stepFn, hs, noopStep] at h
      | menuCmd => simp [stepFn, hs, noopStep] at h
    | personalInfo =>
      cases e with
      | textMsg t =>
        by_cases ht : t = ""
        · simp only [stepFn, hs] at h
          rw [if_pos ht] at h
          simp [noopStep] at h
        · simp only [stepFn, hs] at h
          rw [if_neg ht] at h
          by_cases h7 : s.data.step = some "location"
          · have hred : stepFn s (Event.textMsg t) = personal_info_handler s t := by
              simp only [stepFn, hs]
              rw [if_neg ht]
            have h5 : ¬ s.data.step = some "name" := by rw [h7]; simp
            have h6 : ¬ s.data.step = some "age" := by rw [h7]; simp
            rw [hred]
            unfold personal_info_handler
            rw [if_neg h5, if_neg h6, if_pos h7]
            exact ⟨rfl, h7, t, rfl, ht, rfl⟩
          · rw [personal_info_handler_emitted_of_ne s t h7] at h
            simp at h
      | cancelCmd => simp [stepFn, hs, cancelHandler] at h
      | startCmd => simp [stepFn, hs, noopStep] at h
      | quoteCmd => simp [stepFn, hs, noopStep] at h
      | menuCmd => simp [stepFn, hs, noopStep] at h
      | callback d => simp [stepFn, hs, noopStep] at h
    | quoteDetails =>
      cases e with
      | textMsg t => simp [stepFn, hs, noopStep] at h
      | cancelCmd => simp [stepFn, hs, cancelHandler] at h
      | startCmd => simp [stepFn, hs, noopStep] at h
      | quoteCmd => simp [stepFn, hs, noopStep] at h
      | menuCmd => simp [stepFn, hs, noopStep] at h
      | callback d => simp [stepFn, hs, noopStep] at h

/-- C9: a quote is emitted only from a reachable session that is in the
collecting state at the location step, whose name was stored earlier and
whose age was stored by a validated input in [18,100]; after the emitting
event all three fields are set, the location being the text just
provided. -/
theorem c9_completion_safety (evs : List Event) (e : Event) (q : BotQuote)
    (h : (stepFn (exec initSession evs) e).emitted = some q) :
    (exec initSession evs).conv = some ConvState.personalInfo ∧
    (exec initSession evs).data.step = some "location" ∧
    (exec initSession evs).data.name ≠ none ∧
    (∃ a : ℤ, (exec initSession evs).data.age = some a ∧ 18 ≤ a ∧ a ≤ 100) ∧
    (∃ t : String, e = Event.textMsg t ∧
      (stepFn (exec initSession evs) e).session.data.name ≠ none ∧
      (∃ a : ℤ, (stepFn (exec initSession evs) e).session.data.age = some a ∧
        18 ≤ a ∧ a ≤ 100) ∧
      (stepFn (exec initSession evs) e).session.data.location = some t) := by
  obtain ⟨hconv, hstep, t, he, ht, hsess⟩ := emitted_some_inversion _ e q h
  obtain ⟨i1, i2, i3, i4⟩ := inv_reachable evs
  obtain ⟨hn, ha⟩ := i3 hstep
  refine ⟨hconv, hstep, hn, ha, t, he, ?_, ?_, ?_⟩
  · rw [hsess]
    exact hn
  · rw [hsess]
    exact ha
  · rw [hsess]

/-- Witness for C9: a full successful flow emits a quote from a collecting
session and records the location just provided. -/
theorem c9_completion_safety_witness :
    (exec initSession [.startCmd, .callback "auto", .callback "get_quote",
      .textMsg "Jane Doe", .textMsg "29"]).conv = some ConvState.personalInfo ∧
    (stepFn (exec initSession [.startCmd, .callback "auto", .callback "get_quote",
      .textMsg "Jane Doe", .textMsg "29"])
      (Event.textMsg "Austin, TX")).session.data.location = some "Austin, TX" := by
  have h := c9_completion_safety
    [.startCmd, .callback "auto", .callback "get_quote", .textMsg "Jane Doe", .textMsg "29"]
    (Event.textMsg "Austin, TX")
    { qname := "Jane Doe", qlocation := "Austin, TX", qage := 29,
      monthly := 66, annual := 800 }
    (by decide)
  obtain ⟨h1, _, _, _, t, he, _, _, h7⟩ := h
  cases he
  exact ⟨h1, h7⟩

end InsuranceBot
